import Mathlib

/-!
Verification of the TravelHub self-healing monitor (monitoring/monitor.py)
and the inventory demo service (microservicio_inventario/app.py).

The Python source is shallowly embedded: Python strings become lists of
characters, files become lists of lines (with a missing file represented by
an Option), the per-instance body of the monitor main loop becomes a pure
step function parameterized by the boolean result of the config-editor call,
and the Prometheus JSON pipeline becomes functions over a small JSON type
where raised exceptions are an explicit error value.
-/

/- ── Python string primitives ───────────────────────────────────────── -/

/-- A Python string, as its list of characters.  Lines read by readlines
keep their trailing newline; nothing below depends on that, so a Line is an
arbitrary character list. -/
abbrev Line := List Char

/-- Whitespace characters removed by the Python str.strip family. -/
def isSpace (c : Char) : Bool :=
  c = ' ' || c = '\t' || c = '\n' || c = '\r' || c = '\x0b' || c = '\x0c'

/-- Python str.lstrip(): drop leading whitespace. -/
def lstrip (l : Line) : Line := l.dropWhile isSpace

/-- Drop trailing whitespace (Python str.rstrip()). -/
def rstrip (l : Line) : Line := (l.reverse.dropWhile isSpace).reverse

/-- Python str.strip(): drop whitespace on both sides. -/
def strip (l : Line) : Line := rstrip (lstrip l)

/-- Python substring containment, the expression needle in hay. -/
def containsSub (hay needle : Line) : Bool :=
  (List.range (hay.length + 1)).any fun i => needle.isPrefixOf (hay.drop i)

/- ── Upstream config editor (monitor.py lines 66-125) ───────────────── -/

/-- The marker prefix written by comment_server_in_upstream and recognized
by restore_server_in_upstream; it embeds the instance key and ends in a
space, exactly the Python f-string. -/
def marker (inst : Line) : Line :=
  ("# removed-by-monitor:").data ++ inst ++ (" ").data

/-- The entry keyword tested by stripped.startswith. -/
def serverKw : Line := ("server").data

/-- The comment character tested by stripped.startswith. -/
def hashKw : Line := ("#").data

/-- The fixed reindentation used when restoring a line. -/
def indentWs : Line := ("    ").data

/-- The per-line guard of comment_server_in_upstream (line 78): the raw
line contains the instance key as a substring, and the stripped line starts
with the server keyword and not with a comment character. -/
def lineMatches (inst ln : Line) : Bool :=
  containsSub ln inst && serverKw.isPrefixOf (strip ln)
    && !(hashKw.isPrefixOf (strip ln))

/-- The rewrite applied to one line by comment_server_in_upstream
(lines 78-82): a matching line gets the marker prepended to its lstripped
text, any other line is kept. -/
def commentLine (inst ln : Line) : Line :=
  if lineMatches inst ln then marker inst ++ lstrip ln else ln

/-- The rewrite applied to one line by restore_server_in_upstream
(lines 108-113): a line starting with the marker is replaced by four spaces
followed by the text after the marker, any other line is kept. -/
def restoreLine (inst ln : Line) : Line :=
  if (marker inst).isPrefixOf ln then
    indentWs ++ ln.drop (marker inst).length
  else ln

/-- comment_server_in_upstream (monitor.py lines 66-94).  The file is
none when open raises FileNotFoundError (the function logs and returns
False).  The Python loop computes changed (did any line match) and the
rewritten line list in one pass; here they are the any and the map.  When
nothing changed the function returns False before writing; in dry-run mode
it returns True without writing; otherwise it writes the rewritten lines.
The returned pair is (the boolean result, the file content afterwards). -/
def comment_server_in_upstream (inst : Line) (dry_run : Bool)
    (file : Option (List Line)) : Bool × Option (List Line) :=
  match file with
  | none => (false, none)
  | some lines =>
    let changed := lines.any (lineMatches inst)
    if changed then
      if dry_run then (true, some lines)
      else (true, some (lines.map (commentLine inst)))
    else (false, some lines)

/-- restore_server_in_upstream (monitor.py lines 97-125), same conventions
as comment_server_in_upstream. -/
def restore_server_in_upstream (inst : Line) (dry_run : Bool)
    (file : Option (List Line)) : Bool × Option (List Line) :=
  match file with
  | none => (false, none)
  | some lines =>
    let changed := lines.any fun ln => (marker inst).isPrefixOf ln
    if changed then
      if dry_run then (true, some lines)
      else (true, some (lines.map (restoreLine inst)))
    else (false, some lines)

/-- One editor invocation of the monitor: disable is
comment_server_in_upstream, enable is restore_server_in_upstream. -/
inductive EditOp where
  | disable (k : Line)
  | enable (k : Line)

/-- Dispatch an editor operation with a given dry_run flag on a file. -/
def applyEdit (op : EditOp) (dry_run : Bool) (file : Option (List Line)) :
    Bool × Option (List Line) :=
  match op with
  | .disable k => comment_server_in_upstream k dry_run file
  | .enable k => restore_server_in_upstream k dry_run file

/- ── Instance state machine (monitor.py main loop, lines 202-226) ───── -/

/-- The event kinds appended by log_event inside the loop body. -/
inductive Event where
  | DEGRADATION_CONFIRMED
  | REMOVED_FROM_UPSTREAM
  | HEALTHY_AGAIN
  | RESTORED_TO_UPSTREAM
deriving DecidableEq

/-- Runtime state the loop keeps for one instance: its entry in
state_counters (absent entries read as 0) and its membership in
removed_instances. -/
structure InstState where
  counter : Nat
  removed : Bool
deriving DecidableEq

/-- The body of the for loop in main (monitor.py lines 202-226) for one
(instance, value) pair.  editChanged is the boolean returned by the
comment/restore call when one is attempted (the nginx reload that follows a
successful edit touches neither the runtime state nor the event log, so it
is not modelled).  Returns the new instance state and the events appended
to events_log, in append order. -/
def stepInstance (threshold : ℚ) (consecutive : Int) (editChanged : Bool)
    (st : InstState) (val : ℚ) : InstState × List Event :=
  if threshold ≤ val then
    let cnew := st.counter + 1
    if st.removed = false ∧ consecutive ≤ (cnew : Int) then
      if editChanged then
        ({ counter := cnew, removed := true },
         [.DEGRADATION_CONFIRMED, .REMOVED_FROM_UPSTREAM])
      else
        ({ counter := cnew, removed := st.removed }, [.DEGRADATION_CONFIRMED])
    else
      ({ counter := cnew, removed := st.removed }, [])
  else
    let c0 := if 0 < st.counter then 0 else st.counter
    if st.removed then
      if editChanged then
        ({ counter := c0, removed := false },
         [.HEALTHY_AGAIN, .RESTORED_TO_UPSTREAM])
      else
        ({ counter := c0, removed := st.removed }, [.HEALTHY_AGAIN])
    else
      ({ counter := c0, removed := st.removed }, [])

/-- Iterate stepInstance over a sequence of polls for one instance; each
poll carries the sampled value and the boolean the editor call would
return if attempted.  Events of all polls are concatenated in order. -/
def runPolls (threshold : ℚ) (consecutive : Int) (st : InstState) :
    List (ℚ × Bool) → InstState × List Event
  | [] => (st, [])
  | p :: ps =>
    let r := stepInstance threshold consecutive p.2 st p.1
    let rest := runPolls threshold consecutive r.1 ps
    (rest.1, r.2 ++ rest.2)

/- ── Prometheus health feed (monitor.py lines 35-62) ────────────────── -/

/-- A JSON value as produced by response.json() or request.get_json. -/
inductive Json where
  | null
  | bool (b : Bool)
  | num (q : ℚ)
  | str (s : String)
  | arr (elems : List Json)
  | obj (fields : List (String × Json))

/-- Python truthiness of a JSON-decoded value: None, False, 0, empty
string, empty list and empty dict are falsy. -/
def jsonTruthy : Json → Bool
  | .null => false
  | .bool b => b
  | .num q => q ≠ 0
  | .str s => s ≠ ""
  | .arr xs => !xs.isEmpty
  | .obj fs => !fs.isEmpty

/-- Python dict lookup d.get(key) on a decoded JSON object; first match
(keys of a decoded object are unique, duplicates having been collapsed by
the JSON parser). -/
def lookupField : List (String × Json) → String → Option Json
  | [], _ => none
  | (k, v) :: rest, key => if k = key then some v else lookupField rest key

/-- Python expression a or b on two decoded values. -/
def pyOr (a b : Json) : Json := if jsonTruthy a then a else b

/-- A hashable Python value usable as a dict key.  Python equates True
with 1 and False with 0, so booleans are folded into numbers; lists and
dicts are unhashable and have no key. -/
inductive PyKey where
  | pynull
  | num (q : ℚ)
  | str (s : String)
deriving DecidableEq

/-- The dict key of a decoded JSON value, none when the value is
unhashable (out[instance] = value raises TypeError on a list or dict). -/
def pyKeyOf : Json → Option PyKey
  | .null => some .pynull
  | .bool b => some (.num (if b then 1 else 0))
  | .num q => some (.num q)
  | .str s => some (.str s)
  | .arr _ => none
  | .obj _ => none

/-- Numeric value of a digit run. -/
def digitsVal (ds : List Char) : Nat :=
  ds.foldl (fun n c => 10 * n + (c.toNat - ('0').toNat)) 0

/-- Unsigned decimal literal: digits with an optional fractional part.
Used by the model of float() below. -/
def parseUnsignedDec (cs : List Char) : Option ℚ :=
  let ip := cs.takeWhile Char.isDigit
  let rest := cs.dropWhile Char.isDigit
  match rest with
  | [] => if ip.isEmpty then none else some (digitsVal ip : ℚ)
  | '.' :: fp =>
    if fp.all Char.isDigit && !(ip.isEmpty && fp.isEmpty) then
      some ((digitsVal ip : ℚ) + (digitsVal fp : ℚ) / ((10 : ℚ) ^ fp.length))
    else none
  | _ => none

/-- Python float(s) on the plain decimal fragment of its grammar:
surrounding whitespace, an optional sign, digits with an optional decimal
point.  Exponents and the inf/nan words are not modelled; strings outside
the modelled fragment map to none, i.e. are treated as unparseable. -/
def pyFloatOfString (s : String) : Option ℚ :=
  match strip s.data with
  | '+' :: rest => parseUnsignedDec rest
  | '-' :: rest => (parseUnsignedDec rest).map Neg.neg
  | cs => parseUnsignedDec cs

/-- Python float(x) on a decoded JSON value.  float(True) is 1.0 and
float(False) is 0.0; float of None, a list or a dict raises TypeError,
which the try in parse_inventory_states catches the same way as a
ValueError, so both are none here. -/
def pyFloat : Json → Option ℚ
  | .num q => some q
  | .bool b => some (if b then 1 else 0)
  | .str s => pyFloatOfString s
  | _ => none

/-- Python x[1] on a decoded JSON value: second list element, or the
second character of a string as a one-character string; anything else
raises inside the try and is none here. -/
def pyIndex1 : Json → Option Json
  | .arr xs => xs.get? 1
  | .str s => (s.data.get? 1).map fun c => Json.str (String.mk [c])
  | _ => none

/-- One iteration of the result loop of parse_inventory_states
(monitor.py lines 53-61).  Errors are exceptions that escape the function
(item.get or metric.get on a non-dict raises AttributeError; a truthy
unhashable instance label raises TypeError at out[instance] = value);
ok none means the item contributes nothing (the except/continue on an
unparseable value, or a falsy instance label); ok (some (k, v)) means
out[k] = v runs. -/
def processItem (item : Json) : Except Unit (Option (PyKey × ℚ)) :=
  match item with
  | .obj ifields =>
    match (lookupField ifields "metric").getD (.obj []) with
    | .obj mfields =>
      let inst := pyOr ((lookupField mfields "instance").getD .null)
                       ((lookupField mfields "job").getD .null)
      match (pyIndex1 ((lookupField ifields "value").getD (.arr []))).bind pyFloat with
      | none => .ok none
      | some v =>
        if jsonTruthy inst then
          match pyKeyOf inst with
          | some k => .ok (some (k, v))
          | none => .error ()
        else .ok none
    | _ => .error ()
  | _ => .error ()

/-- Python dict insertion out[k] = v on an association list in insertion
order: an existing key is updated in place, a new key is appended. -/
def dictInsert (k : PyKey) (v : ℚ) (d : List (PyKey × ℚ)) :
    List (PyKey × ℚ) :=
  if d.any fun p => p.1 = k then
    d.map fun p => if p.1 = k then (k, v) else p
  else d ++ [(k, v)]

/-- The result loop of parse_inventory_states threading the out dict;
an exception from any item aborts the whole call. -/
def processItems : List Json → List (PyKey × ℚ) →
    Except Unit (List (PyKey × ℚ))
  | [], acc => .ok acc
  | item :: rest, acc =>
    match processItem item with
    | .error e => .error e
    | .ok none => processItems rest acc
    | .ok (some (k, v)) => processItems rest (dictInsert k v acc)

/-- parse_inventory_states (monitor.py lines 45-62).  The argument is the
value returned by query_prom (none when that returned None).  ok is the
returned mapping; error is an exception escaping the function: a truthy
non-dict response raises at prom_json.get, a data field that is not a dict
raises at .get("result"), and a result field that is neither a list nor
empty raises while iterating (iterating a nonempty string or dict yields
strings whose .get raises; numbers and None are not iterable). -/
def parse_inventory_states (prom_json : Option Json) :
    Except Unit (List (PyKey × ℚ)) :=
  match prom_json with
  | none => .ok []
  | some j =>
    if jsonTruthy j = false then .ok []
    else
      match j with
      | .obj fields =>
        match lookupField fields "status" with
        | some (.str s) =>
          if s = "success" then
            match (lookupField fields "data").getD (.obj []) with
            | .obj dfields =>
              match (lookupField dfields "result").getD (.arr []) with
              | .arr items => processItems items []
              | .str t => if t = "" then .ok [] else .error ()
              | .obj rfields => if rfields.isEmpty then .ok [] else .error ()
              | _ => .error ()
            | _ => .error ()
          else .ok []
        | _ => .ok []
      | _ => .error ()

/-- The outcome of requests.get as seen by query_prom: a transport error
or timeout (requests.get raised), or a response with an HTTP status code
and the result of response.json() (none when the body is not valid JSON
and json() raises). -/
inductive HttpResult where
  | transportError
  | resp (status : Nat) (body : Option Json)

/-- query_prom (monitor.py lines 35-42).  Every exception is caught and
becomes None: requests.get raising, response.raise_for_status raising
(which the requests library does exactly for status codes 400-599), or
response.json() raising on an undecodable body. -/
def query_prom : HttpResult → Option Json
  | .transportError => none
  | .resp status body =>
    if 400 ≤ status ∧ status < 600 then none else body

/-- The health query pipeline of one poll cycle (monitor.py lines
198-199): parse_inventory_states applied to the query_prom result. -/
def healthPipeline (r : HttpResult) : Except Unit (List (PyKey × ℚ)) :=
  parse_inventory_states (query_prom r)

/-- A well-formed Prometheus instant-query success envelope holding the
given result items; used to state properties of the pipeline. -/
def successEnvelope (items : List Json) : Json :=
  .obj [("status", .str "success"), ("data", .obj [("result", .arr items)])]

/- ── Inventory service admin endpoint (app.py) ──────────────────────── -/

/-- STATE_VALUES (app.py line 10). -/
def STATE_VALUES : List (String × Nat) :=
  [("healthy", 0), ("degraded", 1), ("down", 2)]

/-- Dict lookup in STATE_VALUES. -/
def lookupStateValue (s : String) : Option Nat :=
  match STATE_VALUES.find? fun p => p.1 = s with
  | some p => some p.2
  | none => none

/-- The mutable globals of app.py relevant to /admin/state: the stored
service_state value and the inventory_service_state gauge. -/
structure AppState where
  value : String
  gauge : Nat
deriving DecidableEq

/-- Module initialization (app.py lines 12 and 28): state healthy, gauge
set to STATE_VALUES of healthy. -/
def initialAppState : AppState := { value := "healthy", gauge := 0 }

/-- set_state (app.py lines 42-45).  none models the KeyError that
STATE_VALUES[new_state] would raise on an unknown state; the only caller,
update_admin_state, validates membership first, so that branch is
unreachable from the route. -/
def set_state (new_state : String) (st : AppState) : Option AppState :=
  match lookupStateValue new_state with
  | some v => some { value := new_state, gauge := v }
  | none => none

/-- Outcome of one POST /admin/state request: an HTTP response with a
status code and the resulting globals, or an exception escaping the
handler (Flask then answers 500), with the globals at the raise point. -/
inductive RouteOutcome where
  | resp (status : Nat) (st : AppState)
  | raised (st : AppState)
deriving DecidableEq

/-- The globals after an outcome. -/
def outcomeState : RouteOutcome → AppState
  | .resp _ st => st
  | .raised st => st

/-- update_admin_state (app.py lines 98-114).  body is the value of
request.get_json(silent=True), none when the body is absent or not valid
JSON.  The handler replaces a falsy parse result by an empty dict, then
calls content.get("state"): on a truthy non-dict value that attribute
access raises AttributeError (modelled by raised).  The membership test
new_state not in STATE_VALUES hashes the value: a list or dict state
value raises TypeError (raised again); a hashable value that is not a
string key of the dict — absent, None, a boolean, a number, or a
non-member string — answers 400 without touching the globals; a member
string runs set_state and answers 200. -/
def update_admin_state (body : Option Json) (st : AppState) : RouteOutcome :=
  let content : Json :=
    match body with
    | some j => if jsonTruthy j then j else .obj []
    | none => .obj []
  match content with
  | .obj fields =>
    match lookupField fields "state" with
    | some (.str s) =>
      if (lookupStateValue s).isSome then
        match set_state s st with
        | some st2 => .resp 200 st2
        | none => .raised st
      else .resp 400 st
    | some (.arr _) => .raised st
    | some (.obj _) => .raised st
    | _ => .resp 400 st
  | _ => .raised st

/-- The invariant claimed for the service: the stored state is a key of
STATE_VALUES and the gauge equals its encoding. -/
def gaugeMatches (st : AppState) : Prop :=
  lookupStateValue st.value = some st.gauge

/- ── Helper lemmas: strings and the editor ──────────────────────────── -/

/-- dropWhile distributes over appending one element that fails the
predicate. -/
theorem dropWhile_append_singleton (p : Char → Bool) (c : Char)
    (hc : p c = false) (xs : List Char) :
    (xs ++ [c]).dropWhile p = xs.dropWhile p ++ [c] := by
  induction xs with
  | nil => simp [List.dropWhile, hc]
  | cons x xs ih =>
    by_cases hx : p x <;> simp [List.dropWhile_cons, hx, ih]

/-- rstrip keeps a non-space head. -/
theorem rstrip_cons (c : Char) (l : Line) (hc : isSpace c = false) :
    rstrip (c :: l) = c :: rstrip l := by
  simp [rstrip, dropWhile_append_singleton isSpace c hc]

/-- The marker starts with the comment character. -/
theorem marker_eq_cons (inst : Line) :
    marker inst = '#' :: ((" removed-by-monitor:").data ++ inst ++ (" ").data) := by
  simp [marker]

/-- A line produced by the disabling rewrite starts, after stripping, with
the comment character. -/
theorem strip_marker_append (inst x : Line) :
    hashKw.isPrefixOf (strip (marker inst ++ x)) = true := by
  rw [marker_eq_cons]
  have h1 : ('#' :: ((" removed-by-monitor:").data ++ inst ++ (" ").data)) ++ x
      = '#' :: (((" removed-by-monitor:").data ++ inst ++ (" ").data) ++ x) := rfl
  rw [h1]
  have hsp : isSpace '#' = false := by decide
  have h2 : strip ('#' :: (((" removed-by-monitor:").data ++ inst ++ (" ").data) ++ x))
      = '#' :: rstrip (((" removed-by-monitor:").data ++ inst ++ (" ").data) ++ x) := by
    simp [strip, lstrip, List.dropWhile_cons, hsp,
      rstrip_cons _ _ hsp]
  rw [h2]
  simp [hashKw, List.isPrefixOf]

/-- A line rewritten by commentLine never matches the disable guard
again: either it was untouched and did not match, or it now starts with
the comment character. -/
theorem lineMatches_commentLine (inst ln : Line) :
    lineMatches inst (commentLine inst ln) = false := by
  by_cases h : lineMatches inst ln
  · have hc : commentLine inst ln = marker inst ++ lstrip ln := by
      simp [commentLine, h]
    have hp := strip_marker_append inst (lstrip ln)
    simp only [ List.isPrefixOf_iff_prefix] at hp
    rw [hc]
    simp [lineMatches]
    intro _ _
    exact hp
  · simp [commentLine, h]

/-- A prefix is in particular a substring. -/
theorem containsSub_of_isPrefixOf (hay needle : Line)
    (h : needle.isPrefixOf hay = true) : containsSub hay needle = true := by
  apply List.any_eq_true.mpr
  exact ⟨0, List.mem_range.mpr (Nat.succ_pos _), by simpa using h⟩

/-- A list is a prefix of itself followed by anything. -/
theorem isPrefixOf_append_self (l x : List Char) :
    l.isPrefixOf (l ++ x) = true := by
  simp

/- ── Claims about the upstream config editor ────────────────────────── -/

/-- C4: if a committed disable reports changed=true, a second disable on
the resulting file (no intervening enable) reports changed=false and
leaves the file content identical between the two calls. -/
theorem disable_idempotent (inst : Line) (file : List Line)
    (h : (comment_server_in_upstream inst false (some file)).1 = true) :
    (comment_server_in_upstream inst false
        ((comment_server_in_upstream inst false (some file)).2)).1 = false
    ∧ (comment_server_in_upstream inst false
        ((comment_server_in_upstream inst false (some file)).2)).2
      = (comment_server_in_upstream inst false (some file)).2 := by
  by_cases hc : file.any (lineMatches inst)
  · have h2 : comment_server_in_upstream inst false (some file)
        = (true, some (file.map (commentLine inst))) := by
      simp [comment_server_in_upstream, hc]
    have hany : (file.map (commentLine inst)).any (lineMatches inst) = false := by
      rw [List.any_map, List.any_eq_false]
      intro x _
      simp [Function.comp, lineMatches_commentLine]
    rw [h2]
    constructor
    · simp [comment_server_in_upstream, hany]
    · simp [comment_server_in_upstream, hany]
  · exfalso
    simp [comment_server_in_upstream, hc] at h

/-- Witness for disable_idempotent at a concrete one-line file. -/
theorem disable_idempotent_witness :
    (comment_server_in_upstream ("svc-1:8000").data false
        ((comment_server_in_upstream ("svc-1:8000").data false
            (some [("    server svc-1:8000;").data])).2)).1 = false :=
  (disable_idempotent ("svc-1:8000").data [("    server svc-1:8000;").data]
    (by decide)).1

/-- C3: on a file none of whose lines contains the marker string for the
key, committed disable then committed enable restores every affected line
to its original content modulo leading whitespace (the payload after the
marker is the lstripped original, reindented with the fixed indentation),
and leaves every other line untouched. -/
theorem disable_enable_round_trip (inst : Line) (file : List Line)
    (hm : ∀ ln ∈ file, containsSub ln (marker inst) = false) :
    (restore_server_in_upstream inst false
        ((comment_server_in_upstream inst false (some file)).2)).2
      = some (file.map fun ln =>
          if lineMatches inst ln then indentWs ++ lstrip ln else ln) := by
  by_cases hc : file.any (lineMatches inst)
  · have h2 : comment_server_in_upstream inst false (some file)
        = (true, some (file.map (commentLine inst))) := by
      simp [comment_server_in_upstream, hc]
    rw [h2]
    obtain ⟨ln0, hln0, hm0⟩ := List.any_eq_true.mp hc
    have hmark : (file.map (commentLine inst)).any
        (fun ln => (marker inst).isPrefixOf ln) = true := by
      apply List.any_eq_true.mpr
      refine ⟨commentLine inst ln0, List.mem_map_of_mem _ hln0, ?_⟩
      simp [commentLine, hm0]
    have h5 : restore_server_in_upstream inst false
        (some (file.map (commentLine inst)))
        = (true, some ((file.map (commentLine inst)).map (restoreLine inst))) := by
      simp [restore_server_in_upstream, hmark]
    rw [h5, List.map_map]
    show some (file.map (restoreLine inst ∘ commentLine inst))
      = some (file.map fun ln =>
          if lineMatches inst ln then indentWs ++ lstrip ln else ln)
    congr 1
    apply List.map_congr_left
    intro a ha
    by_cases hma : lineMatches inst a
    · have h3 : commentLine inst a = marker inst ++ lstrip a := by
        simp [commentLine, hma]
      have h4 : (marker inst).isPrefixOf (marker inst ++ lstrip a) = true := by
        simp
      simp [Function.comp, h3, restoreLine, h4, List.drop_left, hma]
    · have h3 : commentLine inst a = a := by simp [commentLine, hma]
      have h4 : (marker inst).isPrefixOf a = false := by
        by_contra h5
        have h6 : (marker inst).isPrefixOf a = true := by
          revert h5; cases ((marker inst).isPrefixOf a) <;> simp
        exact absurd (containsSub_of_isPrefixOf a (marker inst) h6)
          (by simp [hm a ha])
      simp [Function.comp, h3, restoreLine, h4, hma]
  · have hnom : ∀ ln ∈ file, lineMatches inst ln = false := by
      intro ln hln
      by_contra h5
      exact hc (List.any_eq_true.mpr ⟨ln, hln,
        by revert h5; cases (lineMatches inst ln) <;> simp⟩)
    have h2 : comment_server_in_upstream inst false (some file)
        = (false, some file) := by
      simp [comment_server_in_upstream, hc]
    rw [h2]
    have hr : (file.any fun ln => (marker inst).isPrefixOf ln) = false := by
      rw [List.any_eq_false]
      intro ln hln hpre
      exact absurd (containsSub_of_isPrefixOf ln (marker inst) hpre)
        (by simp [hm ln hln])
    have h5 : restore_server_in_upstream inst false (some file)
        = (false, some file) := by
      simp [restore_server_in_upstream, hr]
    rw [h5]
    show some file = some (file.map fun ln =>
        if lineMatches inst ln then indentWs ++ lstrip ln else ln)
    congr 1
    calc file = file.map id := (List.map_id file).symm
      _ = file.map fun ln =>
            if lineMatches inst ln then indentWs ++ lstrip ln else ln := by
        apply List.map_congr_left
        intro a ha
        simp [hnom a ha]

/-- Witness for disable_enable_round_trip on a concrete three-line file. -/
theorem disable_enable_round_trip_witness :
    (restore_server_in_upstream ("svc-1:8000").data false
        ((comment_server_in_upstream ("svc-1:8000").data false
            (some [("upstream app").data,
                   ("    server svc-1:8000;").data,
                   ("end").data])).2)).2
      = some ([("upstream app").data,
               ("    server svc-1:8000;").data,
               ("end").data].map fun ln =>
          if lineMatches ("svc-1:8000").data ln then indentWs ++ lstrip ln
          else ln) :=
  disable_enable_round_trip ("svc-1:8000").data
    [("upstream app").data, ("    server svc-1:8000;").data, ("end").data]
    (by decide)

/-- C5 counterexample: the claim fails for the distinct keys svc-1 and
svc-10, because line matching is raw substring containment (monitor.py
line 78): a committed disable of svc-1 rewrites the upstream line of
svc-10, an unrelated instance. -/
theorem editor_frame_cex :
    ("svc-1").data ≠ ("svc-10").data
    ∧ (comment_server_in_upstream ("svc-1").data false
        (some [("    server svc-10:8000;").data])).2
      ≠ some [("    server svc-10:8000;").data] := by
  constructor
  · decide
  · decide

/-- C5 amended: the editor never affects a line that does not mention the
key: committed disable(k) keeps every line not containing k as a
substring, and committed enable(k) keeps every line not starting with the
marker of k.  (The original claim, per distinct instance rather than per
mentioning line, fails when one key occurs inside the entry of another,
e.g. svc-1 inside svc-10.) -/
theorem editor_frame (inst : Line) (file : List Line) (i : Nat) (ln : Line)
    (h1 : file[i]? = some ln) :
    (containsSub ln inst = false →
        ((comment_server_in_upstream inst false (some file)).2.getD [])[i]?
          = some ln)
    ∧ ((marker inst).isPrefixOf ln = false →
        ((restore_server_in_upstream inst false (some file)).2.getD [])[i]?
          = some ln) := by
  constructor
  · intro h2
    have hq : lineMatches inst ln = false := by
      simp [lineMatches, h2]
    by_cases hc : file.any (lineMatches inst)
    · have h3 : comment_server_in_upstream inst false (some file)
          = (true, some (file.map (commentLine inst))) := by
        simp [comment_server_in_upstream, hc]
      rw [h3]
      show (file.map (commentLine inst))[i]? = some ln
      rw [List.getElem?_map, h1]
      simp [commentLine, hq]
    · have h3 : comment_server_in_upstream inst false (some file)
          = (false, some file) := by
        simp [comment_server_in_upstream, hc]
      rw [h3]
      exact h1
  · intro hpre
    by_cases hc : file.any fun l => (marker inst).isPrefixOf l
    · have h3 : restore_server_in_upstream inst false (some file)
          = (true, some (file.map (restoreLine inst))) := by
        simp [restore_server_in_upstream, hc]
      rw [h3]
      show (file.map (restoreLine inst))[i]? = some ln
      rw [List.getElem?_map, h1]
      simp [restoreLine, hpre]
    · have h3 : restore_server_in_upstream inst false (some file)
          = (false, some file) := by
        simp [restore_server_in_upstream, hc]
      rw [h3]
      exact h1

/-- Witness for editor_frame: the closing line of a concrete file is
kept by disable, and the active server line — which contains the key but
does not start with its marker — is kept by enable. -/
theorem editor_frame_witness :
    ((comment_server_in_upstream ("svc-1:8000").data false
        (some [("    server svc-1:8000;").data, ("end").data])).2.getD [])[1]?
      = some ("end").data
    ∧ ((restore_server_in_upstream ("svc-1:8000").data false
        (some [("    server svc-1:8000;").data, ("end").data])).2.getD [])[0]?
      = some ("    server svc-1:8000;").data :=
  ⟨(editor_frame ("svc-1:8000").data
      [("    server svc-1:8000;").data, ("end").data] 1 ("end").data
      (by decide)).1 (by decide),
   (editor_frame ("svc-1:8000").data
      [("    server svc-1:8000;").data, ("end").data] 0
      ("    server svc-1:8000;").data (by decide)).2 (by decide)⟩

/-- C8: with commit=false no editor call mutates the file, each dry-run
call returns exactly the boolean the committing call would return on the
same file state, and consequently any sequence of dry-run calls leaves
the file as it was. -/
theorem dry_run_isolation :
    (∀ (op : EditOp) (file : Option (List Line)),
        applyEdit op true file = ((applyEdit op false file).1, file))
    ∧ (∀ (ops : List EditOp) (file : Option (List Line)),
        ops.foldl (fun f op => (applyEdit op true f).2) file = file) := by
  have h1 : ∀ (op : EditOp) (file : Option (List Line)),
      applyEdit op true file = ((applyEdit op false file).1, file) := by
    intro op file
    cases op <;> cases file <;>
      simp [applyEdit, comment_server_in_upstream,
        restore_server_in_upstream] <;>
      split <;> simp
  refine ⟨h1, ?_⟩
  intro ops
  induction ops with
  | nil => intro file; rfl
  | cons op ops ih =>
    intro file
    have h2 : (applyEdit op true file).2 = file := by rw [h1]
    simp only [List.foldl_cons, h2]
    exact ih file

/- ── Claims about the instance state machine ────────────────────────── -/

/-- Unfolding runPolls at the last poll of a sequence. -/
theorem runPolls_snoc (t : ℚ) (c : Int) (st : InstState)
    (ps : List (ℚ × Bool)) (p : ℚ × Bool) :
    runPolls t c st (ps ++ [p])
      = ((stepInstance t c p.2 (runPolls t c st ps).1 p.1).1,
         (runPolls t c st ps).2
           ++ (stepInstance t c p.2 (runPolls t c st ps).1 p.1).2) := by
  induction ps generalizing st with
  | nil => simp [runPolls]
  | cons q qs ih =>
    simp only [List.cons_append, runPolls]
    simp only [List.append_eq]
    rw [ih]
    simp [List.append_assoc]

/-- Closed form of a run of unhealthy polls with succeeding edits from the
fresh instance state: the counter counts the polls, the instance is
removed exactly when the consecutive threshold has been reached, and the
only events of the whole run are one detection plus one removal, emitted
on the poll that reaches the threshold. -/
theorem unhealthyRun_spec (t : ℚ) (c : Int) (hc : 1 ≤ c) (vs : List ℚ)
    (hvs : ∀ v ∈ vs, t ≤ v) :
    runPolls t c ⟨0, false⟩ (vs.map fun v => (v, true))
      = (⟨vs.length, decide (c ≤ (vs.length : Int))⟩,
         if c ≤ (vs.length : Int) then
           [.DEGRADATION_CONFIRMED, .REMOVED_FROM_UPSTREAM]
         else []) := by
  induction vs using List.reverseRecOn with
  | nil =>
    simp [runPolls]
    omega
  | append_singleton ws v ih =>
    have hws : ∀ w ∈ ws, t ≤ w := fun w hw => hvs w (by simp [hw])
    have hv : t ≤ v := hvs v (by simp)
    rw [List.map_append, List.map_singleton, runPolls_snoc, ih hws]
    by_cases hck : c ≤ (ws.length : Int)
    · have hck1 : c ≤ ((ws.length : Int) + 1) := by omega
      have hrm : (decide (c ≤ (ws.length : Int))) = true := by
        simpa using hck
      simp only [stepInstance, hv, if_true, hrm]
      have hcond : ¬((true = false) ∧ c ≤ ((ws.length + 1 : Nat) : Int)) := by
        intro h; exact absurd h.1 (by simp)
      simp [hcond, hck, hck1]
    · have hrm : (decide (c ≤ (ws.length : Int))) = false := by
        simpa using hck
      simp only [stepInstance, hv, if_true, hrm]
      by_cases hck1 : c ≤ ((ws.length : Int) + 1)
      · have hcond : (false = false) ∧ c ≤ ((ws.length + 1 : Nat) : Int) := by
          refine ⟨rfl, ?_⟩
          push_cast
          omega
        simp [hck, hck1, hcond]
      · have hcond : ¬((false = false) ∧ c ≤ ((ws.length + 1 : Nat) : Int)) := by
          intro h
          have := h.2
          push_cast at this
          omega
        simp [hck, hck1, hcond]

/-- C1: hysteresis.  Starting from the fresh instance state, for any
threshold, any consecutive threshold c of at least 1, and any run of
unhealthy samples with every attempted disable edit reporting a change:
a run of fewer than c polls performs no removal and leaves the instance
in the upstream; a run of at least c polls removes it exactly once (the
removal event appears exactly once no matter how far past c the run
goes). -/
theorem monitor_hysteresis (t : ℚ) (c : Int) (hc : 1 ≤ c) (vs : List ℚ)
    (hvs : ∀ v ∈ vs, t ≤ v) :
    ((runPolls t c ⟨0, false⟩ (vs.map fun v => (v, true))).2.count
        Event.REMOVED_FROM_UPSTREAM
      = if c ≤ (vs.length : Int) then 1 else 0)
    ∧ ((vs.length : Int) < c →
        (runPolls t c ⟨0, false⟩ (vs.map fun v => (v, true))).1.removed
          = false)
    ∧ (c ≤ (vs.length : Int) →
        (runPolls t c ⟨0, false⟩ (vs.map fun v => (v, true))).1.removed
          = true) := by
  rw [unhealthyRun_spec t c hc vs hvs]
  refine ⟨?_, ?_, ?_⟩
  · by_cases h : c ≤ (vs.length : Int) <;> simp [h]
  · intro h
    have h2 : ¬ (c ≤ (vs.length : Int)) := by omega
    simp [h2]
  · intro h
    simp [h]

/-- Witness for monitor_hysteresis: threshold 1, consecutive 2, three
unhealthy polls remove the instance exactly once. -/
theorem monitor_hysteresis_witness :
    (runPolls 1 2 ⟨0, false⟩ ([(1 : ℚ), 1, 1].map fun v => (v, true))).2.count
        Event.REMOVED_FROM_UPSTREAM = 1 := by
  have h := (monitor_hysteresis 1 2 (by decide) [(1 : ℚ), 1, 1]
    (by decide)).1
  simpa using h

/-- C2: immediate recovery.  One healthy sample resets the bad-sample
counter to 0 whatever its prior value; and when the instance was removed
and the restore edit reports a change, the removed flag is cleared and
exactly one restoration event is emitted. -/
theorem immediate_recovery (t : ℚ) (c : Int) (b : Bool) (st : InstState)
    (v : ℚ) (hv : v < t) :
    ((stepInstance t c b st v).1.counter = 0)
    ∧ (st.removed = true → b = true →
        (stepInstance t c b st v).1.removed = false
        ∧ (stepInstance t c b st v).2.count Event.RESTORED_TO_UPSTREAM
            = 1) := by
  have hnle : ¬ t ≤ v := not_le.mpr hv
  have h0 : (if 0 < st.counter then 0 else st.counter) = 0 := by
    split <;> omega
  constructor
  · by_cases hr : st.removed <;> cases b <;>
      simp [stepInstance, hnle, hr, h0]
  · intro hrm hb
    subst hb
    simp [stepInstance, hnle, hrm]

/-- Witness for immediate_recovery: a removed instance with counter 5,
one healthy sample, succeeding restore edit. -/
theorem immediate_recovery_witness :
    (stepInstance 1 2 true ⟨5, true⟩ 0).1.counter = 0
    ∧ (stepInstance 1 2 true ⟨5, true⟩ 0).1.removed = false :=
  ⟨(immediate_recovery 1 2 true ⟨5, true⟩ 0 (by decide)).1,
   ((immediate_recovery 1 2 true ⟨5, true⟩ 0 (by decide)).2 rfl rfl).1⟩

/-- stepInstance on an unhealthy sample once the consecutive threshold is
met for a live instance. -/
theorem stepInstance_unhealthy_confirm (t : ℚ) (c : Int) (b : Bool)
    (st : InstState) (v : ℚ) (hle : t ≤ v)
    (hcond : st.removed = false ∧ c ≤ ((st.counter + 1 : Nat) : Int)) :
    stepInstance t c b st v
      = if b then
          (⟨st.counter + 1, true⟩,
           [.DEGRADATION_CONFIRMED, .REMOVED_FROM_UPSTREAM])
        else (⟨st.counter + 1, st.removed⟩, [.DEGRADATION_CONFIRMED]) := by
  unfold stepInstance
  rw [if_pos hle, if_pos hcond]

/-- stepInstance on an unhealthy sample below the threshold or on an
already removed instance. -/
theorem stepInstance_unhealthy_count (t : ℚ) (c : Int) (b : Bool)
    (st : InstState) (v : ℚ) (hle : t ≤ v)
    (hcond : ¬(st.removed = false ∧ c ≤ ((st.counter + 1 : Nat) : Int))) :
    stepInstance t c b st v = (⟨st.counter + 1, st.removed⟩, []) := by
  unfold stepInstance
  rw [if_pos hle, if_neg hcond]

/-- stepInstance on a healthy sample of a removed instance. -/
theorem stepInstance_healthy_removed (t : ℚ) (c : Int) (b : Bool)
    (st : InstState) (v : ℚ) (hle : ¬ t ≤ v) (hr : st.removed = true) :
    stepInstance t c b st v
      = if b then
          (⟨(if 0 < st.counter then 0 else st.counter), false⟩,
           [.HEALTHY_AGAIN, .RESTORED_TO_UPSTREAM])
        else
          (⟨(if 0 < st.counter then 0 else st.counter), st.removed⟩,
           [.HEALTHY_AGAIN]) := by
  unfold stepInstance
  rw [if_neg hle, if_pos hr]

/-- stepInstance on a healthy sample of a live instance. -/
theorem stepInstance_healthy_live (t : ℚ) (c : Int) (b : Bool)
    (st : InstState) (v : ℚ) (hle : ¬ t ≤ v) (hr : ¬ st.removed = true) :
    stepInstance t c b st v
      = (⟨(if 0 < st.counter then 0 else st.counter), st.removed⟩, []) := by
  unfold stepInstance
  rw [if_neg hle, if_neg hr]

/-- C7: the removed flag is committed, and the removal and restoration
events recorded, only when the editor call reported a change, so a failed
edit leaves the runtime removed state untouched; the detection events
DEGRADATION_CONFIRMED and HEALTHY_AGAIN are recorded at decision time
regardless of the edit result. -/
theorem edit_gated_commit (t : ℚ) (c : Int) (b : Bool) (st : InstState)
    (v : ℚ) :
    (b = false → (stepInstance t c b st v).1.removed = st.removed)
    ∧ (Event.REMOVED_FROM_UPSTREAM ∈ (stepInstance t c b st v).2 →
        b = true ∧ (stepInstance t c b st v).1.removed = true)
    ∧ (Event.RESTORED_TO_UPSTREAM ∈ (stepInstance t c b st v).2 →
        b = true ∧ (stepInstance t c b st v).1.removed = false)
    ∧ (t ≤ v → st.removed = false → c ≤ ((st.counter : Int) + 1) →
        Event.DEGRADATION_CONFIRMED ∈ (stepInstance t c b st v).2)
    ∧ (v < t → st.removed = true →
        Event.HEALTHY_AGAIN ∈ (stepInstance t c b st v).2) := by
  refine ⟨?_, ?_, ?_, ?_, ?_⟩
  · intro hb
    subst hb
    by_cases hle : t ≤ v
    · by_cases hcond : st.removed = false
          ∧ c ≤ ((st.counter + 1 : Nat) : Int)
      · rw [stepInstance_unhealthy_confirm t c false st v hle hcond]
        simp
      · rw [stepInstance_unhealthy_count t c false st v hle hcond]
    · by_cases hr : st.removed = true
      · rw [stepInstance_healthy_removed t c false st v hle hr]
        simp
      · rw [stepInstance_healthy_live t c false st v hle hr]
  · intro hm
    by_cases hle : t ≤ v
    · by_cases hcond : st.removed = false
          ∧ c ≤ ((st.counter + 1 : Nat) : Int)
      · rw [stepInstance_unhealthy_confirm t c b st v hle hcond] at hm ⊢
        cases b
        · simp at hm
        · simp
      · rw [stepInstance_unhealthy_count t c b st v hle hcond] at hm
        simp at hm
    · by_cases hr : st.removed = true
      · rw [stepInstance_healthy_removed t c b st v hle hr] at hm
        cases b <;> simp at hm
      · rw [stepInstance_healthy_live t c b st v hle hr] at hm
        simp at hm
  · intro hm
    by_cases hle : t ≤ v
    · by_cases hcond : st.removed = false
          ∧ c ≤ ((st.counter + 1 : Nat) : Int)
      · rw [stepInstance_unhealthy_confirm t c b st v hle hcond] at hm
        cases b <;> simp at hm
      · rw [stepInstance_unhealthy_count t c b st v hle hcond] at hm
        simp at hm
    · by_cases hr : st.removed = true
      · rw [stepInstance_healthy_removed t c b st v hle hr] at hm ⊢
        cases b
        · simp at hm
        · simp
      · rw [stepInstance_healthy_live t c b st v hle hr] at hm
        simp at hm
  · intro h1 h2 h3
    have hcond : st.removed = false ∧ c ≤ ((st.counter + 1 : Nat) : Int) :=
      ⟨h2, by push_cast; omega⟩
    rw [stepInstance_unhealthy_confirm t c b st v h1 hcond]
    cases b <;> simp
  · intro h1 h2
    have hnle : ¬ t ≤ v := not_le.mpr h1
    rw [stepInstance_healthy_removed t c b st v hnle h2]
    cases b <;> simp

/-- Witness for edit_gated_commit: a failing disable edit on a confirmed
degradation leaves the instance in the upstream yet logs the detection. -/
theorem edit_gated_commit_witness :
    (stepInstance 1 2 false ⟨1, false⟩ 1).1.removed = false
    ∧ Event.DEGRADATION_CONFIRMED ∈ (stepInstance 1 2 false ⟨1, false⟩ 1).2 :=
  ⟨(edit_gated_commit 1 2 false ⟨1, false⟩ 1).1 rfl,
   (edit_gated_commit 1 2 false ⟨1, false⟩ 1).2.2.2.1 (by decide) rfl
     (by decide)⟩

/-- While the disable edit keeps failing, the detection event is emitted
again on every unhealthy poll. -/
theorem reemit_deg (t : ℚ) (c : Int) (v : ℚ) (hv : t ≤ v) :
    ∀ (n : Nat) (st : InstState), st.removed = false →
      c ≤ ((st.counter : Int) + 1) →
      (runPolls t c st (List.replicate n (v, false))).2.count
        Event.DEGRADATION_CONFIRMED = n := by
  intro n
  induction n with
  | zero => intro st _ _; simp [runPolls]
  | succ n ih =>
    intro st hrm hcc
    rw [List.replicate_succ]
    simp only [runPolls]
    have hstep : stepInstance t c false st v
        = ({ counter := st.counter + 1, removed := st.removed },
           [.DEGRADATION_CONFIRMED]) := by
      simp [stepInstance, hv, hrm, hcc]
    rw [hstep]
    have hrm2 : (InstState.mk (st.counter + 1) st.removed).removed = false :=
      hrm
    have hcc2 : c ≤ (((InstState.mk (st.counter + 1) st.removed).counter : Int)
        + 1) := by
      show c ≤ ((st.counter + 1 : Nat) : Int) + 1
      push_cast
      omega
    have ih2 := ih (InstState.mk (st.counter + 1) st.removed) hrm2 hcc2
    simp [List.count_cons, ih2]

/-- While the restore edit keeps failing, the recovery event is emitted
again on every healthy poll of a removed instance. -/
theorem reemit_ha (t : ℚ) (c : Int) (w : ℚ) (hw : w < t) :
    ∀ (n : Nat) (st : InstState), st.removed = true →
      (runPolls t c st (List.replicate n (w, false))).2.count
        Event.HEALTHY_AGAIN = n := by
  intro n
  induction n with
  | zero => intro st _; simp [runPolls]
  | succ n ih =>
    intro st hrm
    rw [List.replicate_succ]
    simp only [runPolls]
    have hnle : ¬ t ≤ w := not_le.mpr hw
    have hstep : stepInstance t c false st w
        = (InstState.mk (if 0 < st.counter then 0 else st.counter)
             st.removed, [.HEALTHY_AGAIN]) := by
      simp [stepInstance, hnle, hrm]
    rw [hstep]
    have hrm2 : (InstState.mk (if 0 < st.counter then 0 else st.counter)
        st.removed).removed = true := hrm
    have ih2 := ih (InstState.mk (if 0 < st.counter then 0 else st.counter)
      st.removed) hrm2
    simp [List.count_cons, ih2]

/-- C9: detection events are re-emitted on every poll while remediation
keeps failing.  Over n polls with a failing edit each time, an unremoved
instance at or past the consecutive threshold logs n detection events,
and a removed, now healthy instance logs n recovery events: neither event
is once-per-episode when the edit reports no change. -/
theorem failing_edit_reemission (t : ℚ) (c : Int) (v w : ℚ) (n : Nat)
    (st1 st2 : InstState) (hv : t ≤ v) (hw : w < t)
    (h1 : st1.removed = false) (h2 : c ≤ ((st1.counter : Int) + 1))
    (h3 : st2.removed = true) :
    (runPolls t c st1 (List.replicate n (v, false))).2.count
        Event.DEGRADATION_CONFIRMED = n
    ∧ (runPolls t c st2 (List.replicate n (w, false))).2.count
        Event.HEALTHY_AGAIN = n :=
  ⟨reemit_deg t c v hv n st1 h1 h2, reemit_ha t c w hw n st2 h3⟩

/-- Witness for failing_edit_reemission: three failing cycles log the
detection event three times and the recovery event three times. -/
theorem failing_edit_reemission_witness :
    (runPolls 1 2 ⟨1, false⟩ (List.replicate 3 ((1 : ℚ), false))).2.count
        Event.DEGRADATION_CONFIRMED = 3
    ∧ (runPolls 1 2 ⟨0, true⟩ (List.replicate 3 ((0 : ℚ), false))).2.count
        Event.HEALTHY_AGAIN = 3 :=
  failing_edit_reemission 1 2 1 0 3 ⟨1, false⟩ ⟨0, true⟩ (by decide)
    (by decide) rfl (by decide) rfl

/- ── Claims about the health feed ───────────────────────────────────── -/

/-- The result loop distributes over list append, short-circuiting on an
exception. -/
theorem processItems_append (xs ys : List Json) (acc : List (PyKey × ℚ)) :
    processItems (xs ++ ys) acc
      = match processItems xs acc with
        | .error e => .error e
        | .ok d => processItems ys d := by
  induction xs generalizing acc with
  | nil => simp [processItems]
  | cons x xs ih =>
    cases hx : processItem x with
    | error e => simp [processItems, hx]
    | ok o =>
      cases o with
      | none =>
        simp only [List.cons_append, processItems, hx]
        exact ih acc
      | some kv =>
        obtain ⟨k, q⟩ := kv
        simp only [List.cons_append, processItems, hx]
        exact ih (dictInsert k q acc)

/-- On a well-formed success envelope the parser is exactly the result
loop started from the empty dict. -/
theorem parse_successEnvelope (items : List Json) :
    parse_inventory_states (some (successEnvelope items))
      = processItems items [] := rfl

/-- C6 counterexample.  First conjunct: a 200 response whose body is the
valid JSON array [1] (not the expected envelope shape) makes the pipeline
raise (prom_json.get on a list raises AttributeError), instead of
returning an empty mapping without raising.  Second conjunct: a 300
response — non-2xx — with a well-formed success envelope is processed and
yields a nonempty mapping, because raise_for_status only raises for
status codes 400-599. -/
theorem health_feed_cex :
    healthPipeline (.resp 200 (some (.arr [.num 1]))) = .error ()
    ∧ (healthPipeline (.resp 300 (some (successEnvelope
        [.obj [("metric", .obj [("instance", .str "a")]),
               ("value", .arr [.str "ts", .str "1"])]])))).toOption
        = some [(.str "a", (1 : ℚ))] :=
  ⟨rfl, by decide⟩

/-- C6 amended: the pipeline returns an empty mapping without raising on
a transport error, on any 4xx or 5xx status, and on a body that is not
decodable JSON; it also returns an empty mapping on a falsy decoded body
and on an envelope whose status field is a string other than success.
Within a success envelope, a result item whose value does not parse as a
float, or whose instance and job labels are missing, contributes nothing
to the mapping, while an item with a nonempty string instance label and a
parseable value contributes exactly its entry.  (Truthy non-object
bodies, and non-4xx/5xx statuses outside 2xx, are excluded: there the
code raises, respectively processes the body — see health_feed_cex.) -/
theorem health_feed_amended :
    (healthPipeline .transportError = .ok [])
    ∧ (∀ (s : Nat) (body : Option Json), 400 ≤ s → s < 600 →
        healthPipeline (.resp s body) = .ok [])
    ∧ (∀ s : Nat, healthPipeline (.resp s none) = .ok [])
    ∧ (∀ j : Json, jsonTruthy j = false →
        parse_inventory_states (some j) = .ok [])
    ∧ (∀ (fields : List (String × Json)) (sv : String),
        lookupField fields "status" = some (.str sv) → sv ≠ "success" →
        parse_inventory_states (some (.obj fields)) = .ok [])
    ∧ (∀ (items : List Json) (bad : Json), processItem bad = .ok none →
        parse_inventory_states (some (successEnvelope (items ++ [bad])))
          = parse_inventory_states (some (successEnvelope items)))
    ∧ (∀ (items : List Json) (good : Json) (k : PyKey) (q : ℚ),
        processItem good = .ok (some (k, q)) →
        parse_inventory_states (some (successEnvelope (items ++ [good])))
          = Except.map (dictInsert k q)
              (parse_inventory_states (some (successEnvelope items))))
    ∧ (∀ (ts v : Json) (s : String), pyFloat v = none →
        processItem (.obj [("metric", .obj [("instance", .str s)]),
          ("value", .arr [ts, v])]) = .ok none)
    ∧ (∀ (ts v : Json) (s : String) (q : ℚ), pyFloat v = some q →
        s ≠ "" →
        processItem (.obj [("metric", .obj [("instance", .str s)]),
          ("value", .arr [ts, v])]) = .ok (some (.str s, q)))
    ∧ (∀ ts v : Json,
        processItem (.obj [("metric", .obj []), ("value", .arr [ts, v])])
          = .ok none) := by
  refine ⟨rfl, ?_, ?_, ?_, ?_, ?_, ?_, ?_, ?_, ?_⟩
  · intro s body h1 h2
    simp [healthPipeline, query_prom, h1, h2, parse_inventory_states]
  · intro s
    simp [healthPipeline, query_prom, parse_inventory_states]
  · intro j hj
    simp [parse_inventory_states, hj]
  · intro fields sv h1 h2
    by_cases ht : jsonTruthy (.obj fields) = false
    · simp [parse_inventory_states, ht]
    · simp [parse_inventory_states, ht, h1, h2]
  · intro items bad hbad
    rw [parse_successEnvelope, parse_successEnvelope, processItems_append]
    cases h : processItems items [] with
    | error e => rfl
    | ok d => simp [processItems, hbad]
  · intro items good k q hgood
    rw [parse_successEnvelope, parse_successEnvelope, processItems_append]
    cases h : processItems items [] with
    | error e => rfl
    | ok d => simp [processItems, hgood, Except.map]
  · intro ts v s hv
    simp [processItem, lookupField, pyIndex1, hv]
  · intro ts v s q hq hs
    simp [processItem, lookupField, pyIndex1, hq, pyOr, jsonTruthy, hs,
      pyKeyOf]
  · intro ts v
    cases hpf : pyFloat v <;>
      simp [processItem, lookupField, pyIndex1, hpf, pyOr, jsonTruthy,
        pyKeyOf]

/-- Witness for health_feed_amended: a 404 yields the empty mapping, an
item with unparseable value is skipped, and a good item is returned. -/
theorem health_feed_amended_witness :
    healthPipeline (.resp 404 (some (successEnvelope []))) = .ok []
    ∧ parse_inventory_states (some (successEnvelope
        ([] ++ [.obj [("metric", .obj [("instance", .str "a")]),
                      ("value", .arr [.str "ts", .str "x"])]])))
        = parse_inventory_states (some (successEnvelope []))
    ∧ processItem (.obj [("metric", .obj [("instance", .str "a")]),
        ("value", .arr [.str "ts", .str "1"])])
        = .ok (some (.str "a", (1 : ℚ))) := by
  obtain ⟨h1, h2, h3, h4, h5, h6, h7, h8, h9, h10⟩ := health_feed_amended
  exact ⟨h2 404 (some (successEnvelope [])) (by decide) (by decide),
    h6 [] (.obj [("metric", .obj [("instance", .str "a")]),
      ("value", .arr [.str "ts", .str "x"])]) rfl,
    h9 (.str "ts") (.str "1") "a" 1 (by decide) (by decide)⟩

/- ── Claims about the inventory admin endpoint ──────────────────────── -/

/-- C10 counterexample: a POST whose JSON body is the valid, truthy,
non-object value [1] lacks a state in the allowed set, yet the handler
does not return 400: content.get("state") raises AttributeError on a
list (Flask then answers 500).  The globals are untouched. -/
theorem admin_state_cex :
    update_admin_state (some (.arr [.num 1])) initialAppState
      = .raised initialAppState
    ∧ update_admin_state (some (.arr [.num 1])) initialAppState
      ≠ .resp 400 initialAppState :=
  ⟨rfl, by decide⟩

/-- C10 amended: the stored state and gauge start consistent and every
request outcome keeps them consistent (state a key of STATE_VALUES, gauge
its encoding); any outcome other than a 200 — a 400 response or a raised
exception — leaves the globals unchanged; a 200 updates both together; a
missing body, or an object body whose state is a hashable non-member (a
non-member string, or absent), yields 400 with the globals unchanged; an
object body whose state value is a list or dict raises TypeError at the
membership test instead of returning 400.  (A truthy non-object JSON
body raises AttributeError instead of returning 400 — see
admin_state_cex.) -/
theorem admin_state_amended :
    gaugeMatches initialAppState
    ∧ (∀ (body : Option Json) (st : AppState), gaugeMatches st →
        gaugeMatches (outcomeState (update_admin_state body st)))
    ∧ (∀ (body : Option Json) (st st2 : AppState) (code : Nat),
        update_admin_state body st = .resp code st2 → code ≠ 200 →
        st2 = st)
    ∧ (∀ (body : Option Json) (st st2 : AppState),
        update_admin_state body st = .raised st2 → st2 = st)
    ∧ (∀ (body : Option Json) (st st2 : AppState),
        update_admin_state body st = .resp 200 st2 → gaugeMatches st2)
    ∧ (∀ (st : AppState) (s : String), lookupStateValue s = none →
        update_admin_state (some (.obj [("state", .str s)])) st
          = .resp 400 st)
    ∧ (∀ st : AppState, update_admin_state none st = .resp 400 st)
    ∧ (∀ (st : AppState) (xs : List Json),
        update_admin_state (some (.obj [("state", .arr xs)])) st
          = .raised st)
    ∧ (∀ (st : AppState) (fs : List (String × Json)),
        update_admin_state (some (.obj [("state", .obj fs)])) st
          = .raised st)
    ∧ (∀ (st : AppState) (s : String) (v : Nat),
        lookupStateValue s = some v →
        update_admin_state (some (.obj [("state", .str s)])) st
          = .resp 200 ⟨s, v⟩) := by
  have hmain : ∀ (body : Option Json) (st : AppState),
      update_admin_state body st = .resp 400 st
      ∨ update_admin_state body st = .raised st
      ∨ ∃ s v, lookupStateValue s = some v
          ∧ update_admin_state body st = .resp 200 ⟨s, v⟩ := by
    intro body st
    cases body with
    | none => left; rfl
    | some j =>
      by_cases hj : jsonTruthy j = true
      · cases j with
        | obj fields =>
          cases hf : lookupField fields "state" with
          | none => left; simp [update_admin_state, hj, hf]
          | some jv =>
            cases jv with
            | str s =>
              cases hv : lookupStateValue s with
              | none =>
                left
                simp [update_admin_state, hj, hf, hv]
              | some v =>
                right; right
                refine ⟨s, v, hv, ?_⟩
                simp [update_admin_state, hj, hf, hv, set_state]
            | null => left; simp [update_admin_state, hj, hf]
            | bool b => left; simp [update_admin_state, hj, hf]
            | num q => left; simp [update_admin_state, hj, hf]
            | arr xs => right; left; simp [update_admin_state, hj, hf]
            | obj fs => right; left; simp [update_admin_state, hj, hf]
        | null => right; left; simp [update_admin_state, hj]
        | bool b => right; left; simp [update_admin_state, hj]
        | num q => right; left; simp [update_admin_state, hj]
        | str s => right; left; simp [update_admin_state, hj]
        | arr xs => right; left; simp [update_admin_state, hj]
      · left
        simp [update_admin_state, hj, lookupField]
  refine ⟨by rfl, ?_, ?_, ?_, ?_, ?_, ?_, ?_, ?_, ?_⟩
  · intro body st h
    rcases hmain body st with h1 | h1 | ⟨s, v, hv, h1⟩ <;> rw [h1]
    · exact h
    · exact h
    · exact hv
  · intro body st st2 code heq hne
    rcases hmain body st with h1 | h1 | ⟨s, v, hv, h1⟩ <;>
      rw [h1] at heq <;> cases heq
    · rfl
    · exact absurd rfl hne
  · intro body st st2 heq
    rcases hmain body st with h1 | h1 | ⟨s, v, hv, h1⟩ <;>
      rw [h1] at heq <;> cases heq
    rfl
  · intro body st st2 heq
    rcases hmain body st with h1 | h1 | ⟨s, v, hv, h1⟩ <;>
      rw [h1] at heq <;> cases heq
    exact hv
  · intro st s hs
    simp [update_admin_state, jsonTruthy, lookupField, hs]
  · intro st
    rfl
  · intro st xs
    rfl
  · intro st fs
    rfl
  · intro st s v hv
    simp [update_admin_state, jsonTruthy, lookupField, hv, set_state]

/-- Witness for admin_state_amended: posting degraded from the initial
state keeps the invariant and sets both the state and the gauge. -/
theorem admin_state_amended_witness :
    gaugeMatches (outcomeState (update_admin_state
        (some (.obj [("state", .str "degraded")])) initialAppState))
    ∧ update_admin_state (some (.obj [("state", .str "degraded")]))
        initialAppState = .resp 200 ⟨"degraded", 1⟩ := by
  obtain ⟨h1, h2, h3, h4, h5, h6, h7, h8, h9, h10⟩ := admin_state_amended
  exact ⟨h2 (some (.obj [("state", .str "degraded")])) initialAppState
      (by rfl),
    h10 initialAppState "degraded" 1 (by decide)⟩
